import Mathlib

/-!
Verification of the query-parameter validation and response-reshaping pipeline
of the Customer-Complaints-Handling dashboard.

The development shallowly embeds:
* the per-endpoint keyword-argument allow-list filtering of
  `cfpb_api_client.py` (`search_complaints` lines 66-79, `get_trend`
  lines 143-156),
* the HTTP response handling of `search_complaints`, `get_complaint` and
  `get_trend` (status-code check, structured error payload),
* the narrative redaction regex of `Home.py` `cleanup_narratives`
  (lines 82-87) and the 500-character cap of `fetch_data` (lines 110-112),
* the trend reshaping block of `Home.py` `fetch_data` (lines 122-133):
  per-category frames indexed by timestamp label, outer concatenation on
  the index, `fillna(0)`.
-/

/-! ## Query option values

A keyword argument value as passed by the callers in `Home.py`: strings,
integers, booleans or lists of strings.  The filtering code never inspects
values, only keys. -/

inductive Value where
  | str (s : String)
  | int (n : Int)
  | boolean (b : Bool)
  | strList (l : List String)
deriving DecidableEq, Repr

/-- The two endpoints whose handlers filter keyword arguments. -/
inductive Endpoint where
  | search
  | trend
deriving DecidableEq, Repr

/-- `valid_params` of `search_complaints` (cfpb_api_client.py lines 66-70). -/
def searchValidParams : List String :=
  ["search_term", "field", "frm", "size", "sort", "format", "no_aggs", "no_highlight",
   "company", "company_public_response", "company_received_max", "company_received_min",
   "company_response", "consumer_consent_provided", "consumer_disputed", "date_received_max",
   "date_received_min", "has_narrative", "issue", "product", "state", "submitted_via", "tags",
   "timely", "zip_code"]

/-- `valid_params` of `get_trend` (cfpb_api_client.py lines 143-147). -/
def trendValidParams : List String :=
  ["search_term", "field", "company", "company_public_response", "company_received_max",
   "company_received_min", "company_response", "consumer_consent_provided", "consumer_disputed",
   "date_received_max", "date_received_min", "focus", "has_narrative", "issue", "lens",
   "product", "state", "submitted_via", "sub_lens", "sub_lens_depth", "tags", "timely",
   "trend_depth", "trend_interval", "zip_code"]

/-- The allow-list of an endpoint (the spec's AllowListSpec). -/
def validParams : Endpoint → List String
  | .search => searchValidParams
  | .trend => trendValidParams

/-- The spec's ParameterFilter: the filtering fragment shared by
`search_complaints` (lines 73 and 77) and `get_trend` (lines 150 and 154):
`params = {k: v for k, v in kwargs.items() if k in valid_params}` and
`invalid_params = [k for k in kwargs.keys() if k not in valid_params]`.
A Python kwargs dict is modelled as an association list with distinct keys in
insertion order.  The first component is the sanitized mapping, the second the
rejected keys (printed as a diagnostic in the source). -/
def filterParams (e : Endpoint) (kwargs : List (String × Value)) :
    List (String × Value) × List String :=
  (kwargs.filter (fun kv => (validParams e).contains kv.1),
   (kwargs.map Prod.fst).filter (fun k => !(validParams e).contains k))

/-- Claim C4: for every endpoint and QueryOptions mapping, ParameterFilter
returns both the sanitized mapping (exactly the entries whose key is in that
endpoint's allow-list) and the list of rejected keys (exactly the input keys
outside the allow-list); in particular the search allow-list sends
size=20, bogus_key="x" to the sanitized mapping size=20 with rejected list
["bogus_key"]. -/
theorem filterParams_returns_sanitized_and_rejected :
    (∀ (e : Endpoint) (kwargs : List (String × Value)) (k : String) (v : Value),
      ((k, v) ∈ (filterParams e kwargs).1 ↔ (k, v) ∈ kwargs ∧ k ∈ validParams e))
    ∧ (∀ (e : Endpoint) (kwargs : List (String × Value)) (k : String),
      (k ∈ (filterParams e kwargs).2 ↔ k ∈ kwargs.map Prod.fst ∧ k ∉ validParams e))
    ∧ filterParams .search [("size", .int 20), ("bogus_key", .str "x")]
        = ([("size", .int 20)], ["bogus_key"]) := by
  refine ⟨fun e kwargs k v => ?_, fun e kwargs k => ?_, by decide⟩
  · simp [filterParams, List.mem_filter]
  · simp [filterParams, List.mem_filter]

/-- Claim C5: for every QueryOptions mapping and either endpoint, the
sanitized key set is contained in the input key set and in the endpoint's
allow-list, and every kept entry carries exactly its input value (every
key-value pair of the output is a key-value pair of the input). -/
theorem filterParams_subset_and_value_preserving
    (e : Endpoint) (kwargs : List (String × Value)) :
    ((filterParams e kwargs).1.map Prod.fst ⊆ kwargs.map Prod.fst)
    ∧ ((filterParams e kwargs).1.map Prod.fst ⊆ validParams e)
    ∧ (∀ kv ∈ (filterParams e kwargs).1, kv ∈ kwargs) := by
  refine ⟨?_, ?_, ?_⟩
  · intro k hk
    simp only [List.mem_map] at hk ⊢
    obtain ⟨kv, hkv, rfl⟩ := hk
    exact ⟨kv, (List.mem_filter.mp hkv).1, rfl⟩
  · intro k hk
    simp only [List.mem_map] at hk
    obtain ⟨kv, hkv, rfl⟩ := hk
    exact List.mem_of_elem_eq_true (List.mem_filter.mp hkv).2
  · intro kv hkv
    exact (List.mem_filter.mp hkv).1

/-- Claim C10: ParameterFilter is idempotent: filtering an already-filtered
mapping against the same endpoint's allow-list returns it unchanged and
rejects nothing. -/
theorem filterParams_idempotent (e : Endpoint) (kwargs : List (String × Value)) :
    filterParams e (filterParams e kwargs).1 = ((filterParams e kwargs).1, []) := by
  unfold filterParams
  refine Prod.ext ?_ ?_
  · simp [List.filter_filter]
  · simp only []
    rw [List.filter_eq_nil_iff]
    intro k hk
    simp only [List.mem_map] at hk
    obtain ⟨kv, hkv, rfl⟩ := hk
    simp
    exact List.mem_of_elem_eq_true (List.mem_filter.mp hkv).2

/-! ## HTTP response handling

The transport (`requests.get`) is the opaque external collaborator of the
spec's RemoteQueryExecutor boundary.  It is modelled as a caller-supplied
function from the sanitized parameters to an `HttpResponse`, whose `json`
field is the already-parsed body (of an arbitrary type). -/

/-- An HTTP response as seen by the client code: a status code and the
parsed JSON body `response.json()`. -/
structure HttpResponse (α : Type) where
  status_code : Nat
  json : α
deriving DecidableEq, Repr

/-- The value a client operation returns: either the parsed body (status
200) or the structured error payload dict
`{"error": ..., "status_code": ...}` built on any other status.  Both are
ordinary return values; the source raises no exception on non-200. -/
inductive ApiResult (α : Type) where
  | ok (body : α)
  | err (error : String) (status_code : Nat)
deriving DecidableEq, Repr

/-- `CFPBApiClient.search_complaints` (cfpb_api_client.py lines 66-86):
filter the kwargs against the search allow-list, issue the GET through the
transport, and return the parsed body on 200, else the error payload. -/
def search_complaints {α : Type}
    (transport : List (String × Value) → HttpResponse α)
    (kwargs : List (String × Value)) : ApiResult α :=
  let params := (filterParams .search kwargs).1
  let response := transport params
  if response.status_code = 200 then .ok response.json
  else .err "Failed to fetch data" response.status_code

/-- `CFPBApiClient.get_trend` (cfpb_api_client.py lines 143-164): same shape
against the trend allow-list and the trends URL. -/
def get_trend {α : Type}
    (transport : List (String × Value) → HttpResponse α)
    (kwargs : List (String × Value)) : ApiResult α :=
  let params := (filterParams .trend kwargs).1
  let response := transport params
  if response.status_code = 200 then .ok response.json
  else .err "Failed to fetch data" response.status_code

/-- `CFPBApiClient.get_complaint` (cfpb_api_client.py lines 89-105): GET on
the complaint id URL, no parameter filtering. -/
def get_complaint {α : Type}
    (transport : String → HttpResponse α)
    (complaintId : String) : ApiResult α :=
  let response := transport complaintId
  if response.status_code = 200 then .ok response.json
  else .err "Failed to fetch data" response.status_code

/-- Claim C7: on any non-200 response each client operation returns the
structured value error="Failed to fetch data" with the status code, as a
value rather than an exception (the embedding is a total function); on a 200
response each returns the parsed JSON body. -/
theorem client_ops_non200_error_payload {α : Type}
    (transport : List (String × Value) → HttpResponse α)
    (transportById : String → HttpResponse α)
    (kwargs : List (String × Value)) (complaintId : String) :
    ((transport (filterParams .search kwargs).1).status_code ≠ 200 →
      search_complaints transport kwargs
        = .err "Failed to fetch data" (transport (filterParams .search kwargs).1).status_code)
    ∧ ((transport (filterParams .search kwargs).1).status_code = 200 →
      search_complaints transport kwargs = .ok (transport (filterParams .search kwargs).1).json)
    ∧ ((transport (filterParams .trend kwargs).1).status_code ≠ 200 →
      get_trend transport kwargs
        = .err "Failed to fetch data" (transport (filterParams .trend kwargs).1).status_code)
    ∧ ((transport (filterParams .trend kwargs).1).status_code = 200 →
      get_trend transport kwargs = .ok (transport (filterParams .trend kwargs).1).json)
    ∧ ((transportById complaintId).status_code ≠ 200 →
      get_complaint transportById complaintId
        = .err "Failed to fetch data" (transportById complaintId).status_code)
    ∧ ((transportById complaintId).status_code = 200 →
      get_complaint transportById complaintId = .ok (transportById complaintId).json) := by
  refine ⟨fun h => ?_, fun h => ?_, fun h => ?_, fun h => ?_, fun h => ?_, fun h => ?_⟩ <;>
    simp [search_complaints, get_trend, get_complaint, h]

/-- Concrete instances of the C7 theorem: a 404 on the search endpoint, a 200
on the trend endpoint, and a 500 on the complaint-by-id endpoint. -/
theorem client_ops_non200_error_payload_witness :
    ((404 : Nat) ≠ 200 ∧ (500 : Nat) ≠ 200)
    ∧ search_complaints (fun _ => ⟨404, (0 : Nat)⟩) [] = .err "Failed to fetch data" 404
    ∧ get_trend (fun _ => ⟨200, (7 : Nat)⟩) [] = .ok 7
    ∧ get_complaint (fun _ => ⟨500, (0 : Nat)⟩) "8256566" = .err "Failed to fetch data" 500 :=
  ⟨⟨by decide, by decide⟩,
   (client_ops_non200_error_payload (fun _ => ⟨404, (0 : Nat)⟩) (fun _ => ⟨500, 0⟩) [] "x").1
     (by decide),
   (client_ops_non200_error_payload (fun _ => ⟨200, (7 : Nat)⟩) (fun _ => ⟨200, 7⟩) [] "x").2.2.2.1
     (by decide),
   (client_ops_non200_error_payload (fun _ => ⟨404, (0 : Nat)⟩) (fun _ => ⟨500, 0⟩) []
     "8256566").2.2.2.2.1 (by decide)⟩

/-! ## Narrative redaction

`cleanup_narratives` (Home.py lines 82-87) applies
`series.str.replace(pattern, "[R]", regex=True)` per string with
`pattern = r'\bX+(?:[^a-zA-Z\d]X+)*'`, and `fetch_data` (lines 110-112)
then truncates each result with `.str.slice(0, 500)`.

The regex is embedded as a left-to-right scanner with one character of
lookahead, which is exactly how the (backtracking-free) pattern matches:
a match starts at a word boundary before an `X` (previous character not a
word character, word characters being ASCII letters, digits and the
underscore), greedily consumes a run of `X`s, and then greedily consumes
(separator, `X`-run) groups where a separator is a single
non-alphanumeric character followed by another `X`.  Each match is
replaced by the literal `[R]`; `re.sub` then resumes scanning right after
the match, whose last character is always an `X` (a word character).
Character classes are the pattern's ASCII classes. -/

/-- Python's `\w` for the word-boundary test: ASCII letter, digit or
underscore. -/
def isWordChar (c : Char) : Bool := c.isAlphanum || c = '_'

/-- Scanner mode: `norm pw` is ordinary scanning where `pw` records whether
the previous character of the original string is a word character (for the
`\b` test); `mask` means a match is being consumed and `[R]` has already
been emitted. -/
inductive Mode where
  | norm (pw : Bool)
  | mask

/-- The substitution `re.sub(r'\bX+(?:[^a-zA-Z\d]X+)*', '[R]', s)` as a
scanner over the character list of `s`. -/
def maskScan : Mode → List Char → List Char
  | _, [] => []
  | .norm pw, c :: rest =>
    if c = 'X' && !pw then '[' :: 'R' :: ']' :: maskScan .mask rest
    else c :: maskScan (.norm (isWordChar c)) rest
  | .mask, [c] =>
    if c = 'X' then [] else [c]
  | .mask, c :: d :: rest2 =>
    if c = 'X' then maskScan .mask (d :: rest2)
    else if !c.isAlphanum && d = 'X' then maskScan .mask (d :: rest2)
    else c :: maskScan (.norm (isWordChar c)) (d :: rest2)

/-- `cleanup_narratives` (Home.py lines 82-87) on a single narrative: the
regex substitution.  Scanning starts with no previous character, i.e. at a
word boundary when the string starts with `X`. -/
def cleanup_narratives (s : String) : String :=
  String.mk (maskScan (.norm false) s.data)

/-- The per-record NarrativeRedactor of the spec: `cleanup_narratives`
followed by `.str.slice(0, 500)` (Home.py lines 110-112), i.e. truncation
to the first 500 characters. -/
def clean_narrative (s : String) : String :=
  String.mk ((cleanup_narratives s).data.take 500)

/-- Claim C6, counterexample: on `"Account XXXX123 was closed"` the code
keeps the digits `123` (a digit cannot be a separator inside a match, and
`re.sub` only replaces the matched `XXXX`), so the output differs from the
spec's expected `"Account [R] was closed"`. -/
theorem cleanup_narratives_spec_example_refuted :
    cleanup_narratives "Account XXXX123 was closed" ≠ "Account [R] was closed" := by
  decide

/-- Claim C6, amended: each match of the redaction pattern — a maximal run
of `X`s starting at a word boundary, extended across single
non-alphanumeric separators that are followed by more `X`s — is replaced by
`[R]`; characters outside matches, including digits adjacent to a run, are
kept, and a run preceded by a word character is not replaced.  In
particular `"Account XXXX123 was closed"` becomes
`"Account [R]123 was closed"`, `"123XXXX"` is unchanged, and in
`"XX XX"` the space separates two `X`-runs inside one match, giving
`"[R]"`. -/
theorem cleanup_narratives_behavior :
    cleanup_narratives "Account XXXX123 was closed" = "Account [R]123 was closed"
    ∧ cleanup_narratives "123XXXX" = "123XXXX"
    ∧ cleanup_narratives "XX XX" = "[R]"
    ∧ cleanup_narratives "No new XXXX-XX account" = "No new [R] account" := by
  refine ⟨by decide, by decide, by decide, by decide⟩

/-- Claim C8: NarrativeRedactor output never exceeds 500 characters. -/
theorem clean_narrative_length_le_500 (s : String) :
    (clean_narrative s).length ≤ 500 := by
  show ((cleanup_narratives s).data.take 500).length ≤ 500
  rw [List.length_take]
  exact Nat.min_le_left _ _

/-- A character list is tame for a given previous-character flag when
scanning it never starts a match: every `X` in it is preceded by a word
character (or by the flagged previous character). -/
def Tame : Bool → List Char → Prop
  | _, [] => True
  | pw, c :: rest => (c = 'X' → pw = true) ∧ Tame (isWordChar c) rest

/-- Scanning a tame list in normal mode is the identity. -/
theorem maskScan_eq_of_tame :
    ∀ (l : List Char) (pw : Bool), Tame pw l → maskScan (.norm pw) l = l := by
  intro l
  induction l with
  | nil => intro pw _; rfl
  | cons c rest ih =>
    intro pw h
    obtain ⟨h1, h2⟩ := h
    have hguard : (c = 'X' && !pw) = false := by
      by_cases hc : c = 'X'
      · simp [hc, h1 hc]
      · simp [hc]
    simp [maskScan, hguard, ih _ h2]

/-- The output of the scanner is tame: in normal mode for the same flag, and
in mask mode for any flag (the first character the mask mode emits is never
an `X`). -/
theorem tame_maskScan :
    ∀ (n : Nat) (l : List Char), l.length ≤ n →
      (∀ pw, Tame pw (maskScan (.norm pw) l)) ∧ (∀ q, Tame q (maskScan .mask l)) := by
  intro n
  induction n with
  | zero =>
    intro l hl
    have : l = [] := List.length_eq_zero.mp (Nat.le_zero.mp hl)
    subst this
    exact ⟨fun _ => trivial, fun _ => trivial⟩
  | succ n ih =>
    intro l hl
    cases l with
    | nil => exact ⟨fun _ => trivial, fun _ => trivial⟩
    | cons c rest =>
      have hrest : rest.length ≤ n := Nat.le_of_succ_le_succ hl
      constructor
      · intro pw
        by_cases hguard : (c = 'X' && !pw) = true
        · simp only [maskScan, hguard, if_pos]
          refine ⟨fun h => absurd h (by decide), ?_⟩
          refine ⟨fun h => absurd h (by decide), ?_⟩
          refine ⟨fun h => absurd h (by decide), ?_⟩
          exact (ih rest hrest).2 (isWordChar ']')
        · simp only [maskScan, hguard, if_neg, Bool.false_eq_true, not_false_iff]
          refine ⟨?_, (ih rest hrest).1 (isWordChar c)⟩
          intro hc
          subst hc
          simpa [Bool.not_eq_true] using hguard
      · intro q
        cases rest with
        | nil =>
          by_cases hc : c = 'X'
          · simp only [maskScan, if_pos hc]
            trivial
          · simp only [maskScan, if_neg hc]
            exact ⟨fun h => absurd h hc, trivial⟩
        | cons d rest2 =>
          by_cases hc : c = 'X'
          · simp only [maskScan, if_pos hc]
            exact (ih (d :: rest2) hrest).2 q
          · by_cases hsep : (!c.isAlphanum && d = 'X') = true
            · simp only [maskScan, if_neg hc, hsep, if_pos]
              exact (ih (d :: rest2) hrest).2 q
            · simp only [maskScan, if_neg hc, hsep, Bool.false_eq_true, not_false_iff, if_neg]
              exact ⟨fun h => absurd h hc, (ih (d :: rest2) hrest).1 (isWordChar c)⟩

/-- Tameness is inherited by prefixes. -/
theorem tame_take :
    ∀ (l : List Char) (pw : Bool) (n : Nat), Tame pw l → Tame pw (l.take n) := by
  intro l
  induction l with
  | nil => intro pw n _; cases n <;> trivial
  | cons c rest ih =>
    intro pw n h
    cases n with
    | zero => trivial
    | succ n => exact ⟨h.1, ih _ n h.2⟩

/-- Claim C9: NarrativeRedactor (regex substitution followed by truncation
to 500 characters) is idempotent. -/
theorem clean_narrative_idempotent (s : String) :
    clean_narrative (clean_narrative s) = clean_narrative s := by
  show String.mk ((maskScan (.norm false)
      ((maskScan (.norm false) s.data).take 500)).take 500)
    = String.mk ((maskScan (.norm false) s.data).take 500)
  have h1 : Tame false (maskScan (.norm false) s.data) :=
    (tame_maskScan s.data.length s.data le_rfl).1 false
  have h2 : Tame false ((maskScan (.norm false) s.data).take 500) :=
    tame_take _ false 500 h1
  rw [maskScan_eq_of_tame _ false h2, List.take_take]
  simp

/-! ## Trend reshaping

`fetch_data` (Home.py lines 122-133) turns the trend aggregation into a
wide table: for each category bucket it builds a frame with the timestamp
labels (`key_as_string`) as index and one count column (`doc_count`) named
after the category, then `pd.concat(data, axis=1)` outer-joins the frames
on the index, `reset_index` turns the index into the `Date` column,
`pd.to_datetime` parses the labels, and `fillna(0)` fills the cells of the
categories that have no observation at a date.

Timestamp labels stay ISO date strings in the embedding; on such labels
lexicographic string order coincides with the order of the parsed dates.

The index union follows pandas: `pd.concat(axis=1)` defaults to
`sort=False` (pandas >= 1.0), so the combined index keeps first-appearance
order — the accumulated labels in order, then each further frame's labels
not seen yet, in their order; concatenating a single frame keeps its index
unchanged, and nothing downstream sorts the rows.  The embedding is
faithful on aggregation responses, whose buckets are group-by results with
pairwise-distinct keys (pandas raises when reindexing a duplicated
index).  Two failure modes of
the source are modelled as `none`: `pd.concat` on an empty list raises
`ValueError: No objects to concatenate`, and building
`pd.DataFrame([])[['key_as_string', 'doc_count']]` for a bucket with an
empty `trend_period` raises a `KeyError`. -/

/-- One category bucket of the aggregation response: the category label
(`item['key']`) and its `trend_period` buckets as
(`key_as_string`, `doc_count`) pairs. -/
structure Bucket where
  key : String
  trend_period : List (String × Nat)
deriving DecidableEq, Repr

/-- The reshaped wide table: the `Date` column (timestamp labels), one
count column name per category, and the rows of counts (one inner list per
date, one entry per category). -/
structure TrendTable where
  dates : List String
  columns : List String
  cells : List (List Nat)
deriving DecidableEq, Repr

/-- Cell access: the count at row `i`, category column `j`. -/
def TrendTable.cell? (t : TrendTable) (i j : Nat) : Option Nat :=
  (t.cells.get? i).bind fun row => row.get? j

/-- Lexicographic strict order on character lists by code point: the order
Python uses to compare `str` values.  On ISO date labels it coincides with
the order of the parsed calendar dates; it is used only to state
ascending-ness of the `Date` column.  (The built-in `String` order is not
used because its comparison function does not reduce in the kernel.) -/
def lexLtB : List Char → List Char → Bool
  | [], [] => false
  | [], _ :: _ => true
  | _ :: _, [] => false
  | a :: as, b :: bs => if a < b then true else if a = b then lexLtB as bs else false

/-- Strict lexicographic order on strings (Python string comparison). -/
def strLt (a b : String) : Prop := lexLtB a.data b.data = true

instance : DecidableRel strLt := fun a b => by unfold strLt; infer_instance

/-- A strictly ascending list of timestamp labels: every element is
lexicographically below every later one. -/
def Ascending (l : List String) : Prop := List.Pairwise strLt l

instance (l : List String) : Decidable (Ascending l) := by
  unfold Ascending
  infer_instance

/-- `pandas.Index.union(other, sort=False)`, the union `pd.concat(axis=1)`
builds with its default `sort=False`: the accumulated labels in order,
followed by the other frame's labels not seen yet, in their order of
appearance.  Nothing is sorted. -/
def indexUnion (u t : List String) : List String :=
  u ++ t.filter (fun x => !u.contains x)

/-- The combined index of `pd.concat(data, axis=1)`: none when the frame
list is empty (the concat raises), otherwise the fold of the index union
over the indexes (a single frame keeps its own index). -/
def concatIndex : List (List String) → Option (List String)
  | [] => none
  | ts :: rest => some (rest.foldl indexUnion ts)

/-- The count of a category at a date after the outer join and
`fillna(0)`: the bucket's entry at that timestamp label if present,
otherwise 0. -/
def lookupCount (tp : List (String × Nat)) (d : String) : Nat :=
  match tp.find? (fun p => p.1 == d) with
  | some p => p.2
  | none => 0

/-- The trend reshaping of `fetch_data` (Home.py lines 122-133).  `none`
models the exceptions on an empty bucket list (`pd.concat` with no objects)
or on a bucket with an empty `trend_period` (column selection on an empty
frame). -/
def trendReshape (buckets : List Bucket) : Option TrendTable :=
  if buckets.any (fun b => b.trend_period.isEmpty) then none
  else
    match concatIndex (buckets.map (fun b => b.trend_period.map Prod.fst)) with
    | none => none
    | some idx =>
      some { dates := idx,
             columns := buckets.map Bucket.key,
             cells := idx.map (fun d => buckets.map (fun b => lookupCount b.trend_period d)) }

theorem mem_indexUnion {x : String} {u t : List String} :
    x ∈ indexUnion u t ↔ x ∈ u ∨ x ∈ t := by
  unfold indexUnion
  rw [List.mem_append, List.mem_filter]
  constructor
  · rintro (h | ⟨h, _⟩)
    · exact Or.inl h
    · exact Or.inr h
  · rintro (h | h)
    · exact Or.inl h
    · by_cases hu : x ∈ u
      · exact Or.inl hu
      · refine Or.inr ⟨h, ?_⟩
        simp [hu]

theorem nodup_indexUnion {u t : List String} (hu : u.Nodup) (ht : t.Nodup) :
    (indexUnion u t).Nodup := by
  unfold indexUnion
  refine List.Nodup.append hu (ht.filter _) ?_
  intro a hau haf
  have hnot := (List.mem_filter.mp haf).2
  simp [hau] at hnot

theorem mem_foldl_indexUnion {x : String} :
    ∀ (L : List (List String)) (acc : List String),
      x ∈ L.foldl indexUnion acc ↔ x ∈ acc ∨ ∃ ts ∈ L, x ∈ ts := by
  intro L
  induction L with
  | nil => intro acc; simp
  | cons ts rest ih =>
    intro acc
    rw [List.foldl_cons, ih, mem_indexUnion]
    constructor
    · rintro ((h | h) | ⟨ts', h1, h2⟩)
      · exact Or.inl h
      · exact Or.inr ⟨ts, List.mem_cons_self _ _, h⟩
      · exact Or.inr ⟨ts', List.mem_cons_of_mem _ h1, h2⟩
    · rintro (h | ⟨ts', h1, h2⟩)
      · exact Or.inl (Or.inl h)
      · rcases List.mem_cons.mp h1 with h1 | h1
        · subst h1; exact Or.inl (Or.inr h2)
        · exact Or.inr ⟨ts', h1, h2⟩

theorem nodup_foldl_indexUnion :
    ∀ (L : List (List String)) (acc : List String), acc.Nodup → (∀ ts ∈ L, ts.Nodup) →
      (L.foldl indexUnion acc).Nodup := by
  intro L
  induction L with
  | nil => intro acc h _; exact h
  | cons ts rest ih =>
    intro acc h hL
    exact ih _ (nodup_indexUnion h (hL ts (List.mem_cons_self _ _)))
      (fun ts' h' => hL ts' (List.mem_cons_of_mem _ h'))

/-- When every later frame's labels already occur in the accumulated index,
the appearance-order union adds nothing. -/
theorem foldl_indexUnion_absorb :
    ∀ (L : List (List String)) (acc : List String),
      (∀ ts ∈ L, ∀ d ∈ ts, d ∈ acc) → L.foldl indexUnion acc = acc := by
  intro L
  induction L with
  | nil => intro acc _; rfl
  | cons ts rest ih =>
    intro acc h
    have habs : indexUnion acc ts = acc := by
      unfold indexUnion
      rw [List.filter_eq_nil_iff.mpr, List.append_nil]
      intro x hx
      simp [h ts (List.mem_cons_self _ _) x hx]
    rw [List.foldl_cons, habs]
    exact ih _ (fun ts' h' => h ts' (List.mem_cons_of_mem _ h'))

/-- The row of counts produced for one date: entry `j` is the count of
bucket `j` at that date. -/
theorem row_get?_lookup (b0 : Bucket) (rest : List Bucket) (d : String) (j : Nat)
    (hj : j < (b0 :: rest).length) :
    (lookupCount b0.trend_period d :: rest.map (fun b => lookupCount b.trend_period d)).get? j
      = some (lookupCount ((b0 :: rest).get ⟨j, hj⟩).trend_period d) := by
  show ((b0 :: rest).map (fun b => lookupCount b.trend_period d)).get? j = _
  rw [List.get?_map, List.get?_eq_get hj, Option.map_some']

/-- Claim C1: on an aggregation response with at least one bucket, distinct
timestamp labels within each bucket and distinct category labels (the
group-by invariants of the source data), the produced table has exactly one
row per distinct timestamp label across all buckets (the `Date` column is
duplicate-free and carries exactly the labels occurring in some bucket),
exactly one count column per category label, and every cell whose category
has no entry at the row's date is 0. -/
theorem trendReshape_shape (bs : List Bucket) (t : TrendTable)
    (hts : ∀ b ∈ bs, (b.trend_period.map Prod.fst).Nodup)
    (hkeys : (bs.map Bucket.key).Nodup)
    (h : trendReshape bs = some t) :
    t.dates.Nodup
    ∧ (∀ d, d ∈ t.dates ↔ ∃ b ∈ bs, d ∈ b.trend_period.map Prod.fst)
    ∧ t.columns = bs.map Bucket.key
    ∧ t.columns.Nodup
    ∧ (∀ i j (hi : i < t.dates.length) (hj : j < bs.length),
        (∀ n : Nat, (t.dates.get ⟨i, hi⟩, n) ∉ (bs.get ⟨j, hj⟩).trend_period) →
        t.cell? i j = some 0) := by
  unfold trendReshape at h
  by_cases hany : (bs.any fun b => b.trend_period.isEmpty) = true
  · rw [if_pos hany] at h
    exact absurd h (by simp)
  · rw [if_neg hany] at h
    cases bs with
    | nil => exact absurd h (by simp [concatIndex])
    | cons b0 rest =>
      simp only [List.map_cons, concatIndex] at h
      rw [Option.some.injEq] at h
      subst h
      dsimp only
      refine ⟨?_, ?_, rfl, hkeys, ?_⟩
      · refine nodup_foldl_indexUnion _ _ (hts b0 (List.mem_cons_self _ _)) ?_
        intro ts hts'
        obtain ⟨b, hb, rfl⟩ := List.mem_map.mp hts'
        exact hts b (List.mem_cons_of_mem _ hb)
      · intro d
        rw [mem_foldl_indexUnion]
        constructor
        · rintro (hd | ⟨ts, hts', hd⟩)
          · exact ⟨b0, List.mem_cons_self _ _, hd⟩
          · obtain ⟨b, hb, rfl⟩ := List.mem_map.mp hts'
            exact ⟨b, List.mem_cons_of_mem _ hb, hd⟩
        · rintro ⟨b, hb, hd⟩
          rcases List.mem_cons.mp hb with rfl | hb
          · exact Or.inl hd
          · exact Or.inr ⟨_, List.mem_map_of_mem _ hb, hd⟩
      · intro i j hi hj hno
        unfold TrendTable.cell?
        dsimp only at hi hno ⊢
        rw [List.get?_map, List.get?_eq_get hi, Option.map_some', Option.some_bind,
          row_get?_lookup b0 rest _ j hj, Option.some.injEq]
        unfold lookupCount
        rw [List.find?_eq_none.mpr]
        intro p hp hbeq
        have hpd := eq_of_beq hbeq
        exact hno p.2 (by rw [← hpd]; simpa using hp)

/-- The spec's worked example: categories Checking and Credit Card. -/
def exBuckets : List Bucket :=
  [⟨"Checking", [("2024-01-01", 3), ("2024-02-01", 5)]⟩,
   ⟨"Credit Card", [("2024-02-01", 2)]⟩]

/-- The table the code produces on `exBuckets`. -/
def exTable : TrendTable :=
  ⟨["2024-01-01", "2024-02-01"], ["Checking", "Credit Card"], [[3, 0], [5, 2]]⟩

/-- The C1 theorem instantiated at the spec's worked example. -/
theorem trendReshape_shape_witness :
    ((∀ b ∈ exBuckets, (b.trend_period.map Prod.fst).Nodup)
      ∧ (exBuckets.map Bucket.key).Nodup
      ∧ trendReshape exBuckets = some exTable)
    ∧ (exTable.dates.Nodup
      ∧ (∀ d, d ∈ exTable.dates ↔ ∃ b ∈ exBuckets, d ∈ b.trend_period.map Prod.fst)
      ∧ exTable.columns = exBuckets.map Bucket.key
      ∧ exTable.columns.Nodup
      ∧ (∀ i j (hi : i < exTable.dates.length) (hj : j < exBuckets.length),
          (∀ n : Nat, (exTable.dates.get ⟨i, hi⟩, n) ∉ (exBuckets.get ⟨j, hj⟩).trend_period) →
          exTable.cell? i j = some 0)) :=
  ⟨⟨by decide, by decide, by decide⟩,
   trendReshape_shape exBuckets exTable (by decide) (by decide) (by decide)⟩

/-- Claim C2, counterexample: on an aggregation response with zero category
buckets the code does not return an empty table — `pd.concat` is called
with no objects and raises, modelled by `none`. -/
theorem trendReshape_empty_input_fails : trendReshape [] = none := rfl

/-- Claim C2, amended: the reshaping fails (raises) exactly on the
degenerate inputs — an empty bucket list, or a bucket whose `trend_period`
is empty; on every other input it returns a table. -/
theorem trendReshape_none_iff (bs : List Bucket) :
    trendReshape bs = none ↔ bs = [] ∨ ∃ b ∈ bs, b.trend_period = [] := by
  unfold trendReshape
  by_cases hany : (bs.any fun b => b.trend_period.isEmpty) = true
  · rw [if_pos hany]
    simp only [true_iff]
    obtain ⟨b, hb, hemp⟩ := List.any_eq_true.mp hany
    exact Or.inr ⟨b, hb, List.isEmpty_iff.mp hemp⟩
  · rw [if_neg hany]
    cases bs with
    | nil => simp [concatIndex]
    | cons b0 rest =>
      simp only [List.map_cons, concatIndex]
      constructor
      · intro hcontra
        exact absurd hcontra (by simp)
      · rintro (hnil | ⟨b, hb, hemp⟩)
        · exact absurd hnil (by simp)
        · exact absurd (List.any_eq_true.mpr ⟨b, hb, List.isEmpty_iff.mpr hemp⟩) hany

/-- Claim C3, counterexample: the code never sorts rows.  A single bucket
whose timestamps are listed out of order passes through unsorted, and even
two buckets whose own sequences are strictly ascending produce a
decreasing `Date` column when the second bucket's label precedes the
first's: `pd.concat(axis=1)` defaults to `sort=False` and keeps the union
of the indexes in first-appearance order. -/
theorem trendReshape_unsorted_buckets :
    (trendReshape [⟨"Checking", [("2024-02-01", 5), ("2024-01-01", 3)]⟩]
      = some ⟨["2024-02-01", "2024-01-01"], ["Checking"], [[5], [3]]⟩
    ∧ trendReshape [⟨"Checking", [("2024-02-01", 5)]⟩,
        ⟨"Credit Card", [("2024-01-01", 2)]⟩]
      = some ⟨["2024-02-01", "2024-01-01"], ["Checking", "Credit Card"], [[5, 0], [0, 2]]⟩
    ∧ Ascending ["2024-02-01"] ∧ Ascending ["2024-01-01"])
    ∧ ¬ List.Chain' (fun a b : String => strLt a b ∨ a = b)
        ["2024-02-01", "2024-01-01"] := by
  refine ⟨⟨by decide, by decide, by decide, by decide⟩, ?_⟩
  intro h
  have := List.chain'_cons.mp h
  rcases this.1 with hlt | heq
  · exact absurd hlt (by decide)
  · exact absurd heq (by decide)

/-- Claim C3, amended: rows are in ascending date order when the buckets
share a common axis: the first bucket's timestamp sequence is strictly
ascending and every later bucket's labels already occur in it (as when the
server returns the same date-histogram axis for every category).  The
`Date` column is then exactly the first bucket's label sequence.  In
general the rows are only in first-appearance order: the code never sorts
them, so even individually ascending buckets can yield an unsorted column. -/
theorem trendReshape_sorted_common_axis (b0 : Bucket) (rest : List Bucket) (t : TrendTable)
    (hasc : Ascending (b0.trend_period.map Prod.fst))
    (hsub : ∀ b ∈ rest, ∀ d ∈ b.trend_period.map Prod.fst, d ∈ b0.trend_period.map Prod.fst)
    (h : trendReshape (b0 :: rest) = some t) :
    t.dates = b0.trend_period.map Prod.fst
    ∧ List.Chain' (fun a b : String => strLt a b ∨ a = b) t.dates := by
  unfold trendReshape at h
  by_cases hany : ((b0 :: rest).any fun b => b.trend_period.isEmpty) = true
  · rw [if_pos hany] at h
    exact absurd h (by simp)
  · rw [if_neg hany] at h
    simp only [List.map_cons, concatIndex] at h
    rw [Option.some.injEq] at h
    subst h
    dsimp only
    have habs : (rest.map fun b => b.trend_period.map Prod.fst).foldl indexUnion
        (b0.trend_period.map Prod.fst) = b0.trend_period.map Prod.fst := by
      refine foldl_indexUnion_absorb _ _ ?_
      intro ts hts d hd
      obtain ⟨b, hb, rfl⟩ := List.mem_map.mp hts
      exact hsub b hb d hd
    rw [habs]
    exact ⟨rfl, List.Chain'.imp (fun a b hab => Or.inl hab) hasc.chain'⟩

/-- The C3 amended theorem instantiated at the spec's worked example, whose
Credit Card labels all occur on the Checking axis. -/
theorem trendReshape_sorted_common_axis_witness :
    (Ascending ((⟨"Checking", [("2024-01-01", 3), ("2024-02-01", 5)]⟩ : Bucket).trend_period.map
        Prod.fst)
      ∧ (∀ b ∈ [(⟨"Credit Card", [("2024-02-01", 2)]⟩ : Bucket)],
          ∀ d ∈ b.trend_period.map Prod.fst,
            d ∈ (⟨"Checking", [("2024-01-01", 3), ("2024-02-01", 5)]⟩ : Bucket).trend_period.map
              Prod.fst)
      ∧ trendReshape exBuckets = some exTable)
    ∧ (exTable.dates
        = (⟨"Checking", [("2024-01-01", 3), ("2024-02-01", 5)]⟩ : Bucket).trend_period.map
            Prod.fst
      ∧ List.Chain' (fun a b : String => strLt a b ∨ a = b) exTable.dates) :=
  ⟨⟨by decide, by decide, by decide⟩,
   trendReshape_sorted_common_axis ⟨"Checking", [("2024-01-01", 3), ("2024-02-01", 5)]⟩
     [⟨"Credit Card", [("2024-02-01", 2)]⟩] exTable (by decide) (by decide) (by decide)⟩
